import Mathlib

/-!
Shallow embedding of the quantitative core of the Spot-Exposure-Hedging bot
(risk.py, greeks.py, options_hedger.py, portfolio_analytics.py, strategies.py).

Real-number (Python float) arithmetic is modelled over `ℚ`.  Transcendental
primitives (`math.log`, `math.sqrt`, `scipy.stats.norm.cdf/pdf/ppf`,
`math.exp`) have no rational counterpart, so all definitions are parametric
in a `MathModel` supplying those functions as plain `ℚ → ℚ` maps; the raising
behaviour of the Python wrappers (`math.log`/`math.sqrt` raise on
out-of-domain input, float division raises `ZeroDivisionError`) is encoded
explicitly and does not depend on the model.  Fallible Python code is
embedded as `Except PyErr`.
-/

namespace SpotHedge

/-- The ways the embedded Python code can raise: `ValueError` from explicit
raises or empty-array reductions, `ZeroDivisionError` from float division by
zero, the `math` module's domain `ValueError`, and the venue layer's
`ExchangeError`. -/
inductive PyErr where
  | valueError
  | zeroDivisionError
  | mathDomainError
  | exchangeError
deriving DecidableEq, Repr

/-- Abstract model of the transcendental float primitives used by the code:
`math.log`, `math.sqrt`, `math.exp`, `scipy.stats.norm.cdf`, `norm.pdf`,
`norm.ppf`, each as a total map on the values inside their domain. -/
structure MathModel where
  log : ℚ → ℚ
  sqrt : ℚ → ℚ
  exp : ℚ → ℚ
  cdf : ℚ → ℚ
  pdf : ℚ → ℚ
  ppf : ℚ → ℚ

/-- Python float division: raises `ZeroDivisionError` on a zero denominator. -/
def pyDiv (a b : ℚ) : Except PyErr ℚ :=
  if b = 0 then .error .zeroDivisionError else .ok (a / b)

/-- `math.log`: raises a math-domain `ValueError` on nonpositive input. -/
def pyLog (m : MathModel) (x : ℚ) : Except PyErr ℚ :=
  if x ≤ 0 then .error .mathDomainError else .ok (m.log x)

/-- `math.sqrt`: raises a math-domain `ValueError` on negative input;
`math.sqrt(0.0)` is exactly `0.0`. -/
def pySqrt (m : MathModel) (x : ℚ) : Except PyErr ℚ :=
  if x < 0 then .error .mathDomainError else if x = 0 then .ok 0 else .ok (m.sqrt x)

/-- `OptionType` from greeks.py. -/
inductive OptionType where
  | call
  | put
deriving DecidableEq, Repr

/-- `RiskCalculator.__init__` state (risk.py): spot size, perp size,
threshold percent. -/
structure RiskCalculator where
  spot : ℚ
  perp : ℚ
  threshold_percent : ℚ
deriving DecidableEq, Repr

namespace RiskCalculator

/-- `RiskCalculator.net_delta`: `self.spot + self.perp`. -/
def net_delta (rc : RiskCalculator) : ℚ :=
  rc.spot + rc.perp

/-- `RiskCalculator.threshold_limit`:
`abs(self.spot) * (self.threshold_percent / 100)`. -/
def threshold_limit (rc : RiskCalculator) : ℚ :=
  |rc.spot| * (rc.threshold_percent / 100)

/-- `RiskCalculator.needs_hedge`:
`abs(self.net_delta()) > self.threshold_limit()`. -/
def needs_hedge (rc : RiskCalculator) : Bool :=
  decide (|rc.net_delta| > rc.threshold_limit)

/-- `RiskCalculator.hedge_amount`: `self.net_delta()`. -/
def hedge_amount (rc : RiskCalculator) : ℚ :=
  rc.net_delta

end RiskCalculator

namespace GreeksCalculator

/-- `GreeksCalculator._d1` (greeks.py):
`(math.log(S/K) + (r + 0.5*sigma*sigma)*T) / (sigma*math.sqrt(T))`, with
Python left-to-right evaluation of the fallible subterms (`S/K`, then
`math.log`, then `math.sqrt`, then the outer division). -/
def d1 (m : MathModel) (S K T r sigma : ℚ) : Except PyErr ℚ := do
  let ratio ← pyDiv S K
  let l ← pyLog m ratio
  let sq ← pySqrt m T
  pyDiv (l + (r + 1/2 * sigma * sigma) * T) (sigma * sq)

/-- `GreeksCalculator._d2`: `d1 - sigma*math.sqrt(T)`. -/
def d2 (m : MathModel) (d1v sigma T : ℚ) : Except PyErr ℚ := do
  let sq ← pySqrt m T
  .ok (d1v - sigma * sq)

/-- `GreeksCalculator.delta`: `norm.cdf(d1)` for a call, `norm.cdf(d1)-1`
for a put. -/
def delta (m : MathModel) (S K T r sigma : ℚ) (otype : OptionType) :
    Except PyErr ℚ := do
  let d ← d1 m S K T r sigma
  .ok (if otype = OptionType.call then m.cdf d else m.cdf d - 1)

/-- `GreeksCalculator.gamma`: `norm.pdf(d1) / (S * sigma * math.sqrt(T))`. -/
def gamma (m : MathModel) (S K T r sigma : ℚ) : Except PyErr ℚ := do
  let d ← d1 m S K T r sigma
  let sq ← pySqrt m T
  pyDiv (m.pdf d) (S * sigma * sq)

/-- `GreeksCalculator.theta`: the per-calendar-day closed form, kind-specific
in the sign of the rate term and in `cdf(d2)` versus `cdf(-d2)`. -/
def theta (m : MathModel) (S K T r sigma : ℚ) (otype : OptionType) :
    Except PyErr ℚ := do
  let d ← d1 m S K T r sigma
  let dd ← d2 m d sigma T
  let sq ← pySqrt m T
  let core ← pyDiv (-S * m.pdf d * sigma) (2 * sq)
  if otype = OptionType.call then
    .ok ((core - r * K * m.exp (-r * T) * m.cdf dd) / 365)
  else
    .ok ((core + r * K * m.exp (-r * T) * m.cdf (-dd)) / 365)

/-- `GreeksCalculator.vega`: `S * norm.pdf(d1) * math.sqrt(T) / 100`. -/
def vega (m : MathModel) (S K T r sigma : ℚ) : Except PyErr ℚ := do
  let d ← d1 m S K T r sigma
  let sq ← pySqrt m T
  .ok (S * m.pdf d * sq / 100)

end GreeksCalculator

/-- `OptionsHedger.__init__` state (options_hedger.py). -/
structure OptionsHedger where
  S : ℚ
  K : ℚ
  T : ℚ
  r : ℚ
  sigma : ℚ
  spot_qty : ℚ

namespace OptionsHedger

/-- `OptionsHedger.put_delta`:
`abs(GreeksCalculator.delta(S, K, T, r, sigma, OptionType.PUT))`. -/
def put_delta (m : MathModel) (h : OptionsHedger) : Except PyErr ℚ :=
  (GreeksCalculator.delta m h.S h.K h.T h.r h.sigma OptionType.put).map
    (fun d => |d|)

/-- `OptionsHedger.hedge_qty`: `ceil(self.spot_qty / d_put)`; the Python
division raises `ZeroDivisionError` when `d_put` is zero. -/
def hedge_qty (m : MathModel) (h : OptionsHedger) : Except PyErr ℤ := do
  let d_put ← put_delta m h
  let q ← pyDiv h.spot_qty d_put
  .ok ⌈q⌉

end OptionsHedger

/-- `np.diff`: successive differences, `xs[1:] - xs[:-1]`. -/
def npDiff (xs : List ℚ) : List ℚ :=
  List.zipWith (fun a b => b - a) xs xs.tail

/-- `np.mean`. -/
def mean (xs : List ℚ) : ℚ :=
  xs.sum / (xs.length : ℚ)

/-- Bessel-corrected sample variance, as in `np.var(xs, ddof=1)` and under
the square root of `np.std(xs, ddof=1)`.  (For a single data point numpy
produces NaN from `0/0`; claims below only evaluate it on two or more
points, where the embedding is exact.) -/
def sampleVar (xs : List ℚ) : ℚ :=
  ((xs.map (fun x => (x - mean xs) ^ 2)).sum) / ((xs.length : ℚ) - 1)

/-- Bessel-corrected sample covariance, the `[0, 1]` entry of
`np.cov(xs, ys, ddof=1)`. -/
def sampleCov (xs ys : List ℚ) : ℚ :=
  ((List.zipWith (fun a b => (a - mean xs) * (b - mean ys)) xs ys).sum) /
    ((xs.length : ℚ) - 1)

/-- `np.sqrt` as used on a (non-negative) variance: total, exact at zero,
and given by the model map elsewhere. -/
def npSqrt (m : MathModel) (x : ℚ) : ℚ :=
  if x = 0 then 0 else m.sqrt x

/-- `np.percentile(xs, q)` with the default linear interpolation: with the
data sorted ascending, the value at fractional position `q/100 * (n-1)`. -/
def percentile (xs : List ℚ) (q : ℚ) : ℚ :=
  let s := List.insertionSort (fun a b => a ≤ b) xs
  let pos := q / 100 * ((s.length : ℚ) - 1)
  let i := (⌊pos⌋).toNat
  let frac := pos - (⌊pos⌋ : ℚ)
  s.getD i 0 + frac * (s.getD (i + 1) (s.getD i 0) - s.getD i 0)

namespace RiskCalculator

/-- `RiskCalculator.var` (risk.py): log-returns of the price series;
`ValueError` when fewer than two prices; empirical-percentile fallback when
the sample standard deviation is below `1e-8`; otherwise the parametric
quantile clamped at zero. -/
def var (m : MathModel) (rc : RiskCalculator) (prices : List ℚ)
    (confidence : ℚ) : Except PyErr ℚ :=
  let returns := npDiff (prices.map m.log)
  if returns.length = 0 then .error .valueError
  else
    let mu := mean returns
    let sigma := npSqrt m (sampleVar returns)
    let alpha := 1 - confidence
    if sigma < 1 / 100000000 then
      .ok (-(percentile returns (alpha * 100)) * |rc.spot|)
    else
      let z := m.ppf alpha
      .ok (max (-(mu + sigma * z) * |rc.spot|) 0)

end RiskCalculator

/-- `np.maximum.accumulate` on the tail, given the running maximum so far. -/
def maxAccumFrom (mx : ℚ) : List ℚ → List ℚ
  | [] => []
  | x :: xs => (max mx x) :: maxAccumFrom (max mx x) xs

/-- `np.maximum.accumulate`: element `i` is the maximum of the first `i+1`
input elements. -/
def maxAccum : List ℚ → List ℚ
  | [] => []
  | x :: xs => x :: maxAccumFrom x xs

/-- `np.max`: raises `ValueError` on an empty array, otherwise folds `max`. -/
def npMax : List ℚ → Except PyErr ℚ
  | [] => .error .valueError
  | x :: xs => .ok (xs.foldl max x)

namespace RiskCalculator

/-- `RiskCalculator.max_drawdown`:
`np.max(np.maximum.accumulate(pnl) - pnl)`. -/
def max_drawdown (pnl : List ℚ) : Except PyErr ℚ :=
  npMax (List.zipWith (fun c p => c - p) (maxAccum pnl) pnl)

/-- `RiskCalculator.beta` (risk.py): log-returns of benchmark and asset,
then `np.cov(r_a, r_b, ddof=1)[0,1] / np.var(r_b, ddof=1)`.  (numpy float
division never raises; the zero-variance case yields inf/nan in numpy and
is outside the claims below, which keep the benchmark variance nonzero.) -/
def beta (m : MathModel) (prices_benchmark prices_asset : List ℚ) : ℚ :=
  let r_b := npDiff (prices_benchmark.map m.log)
  let r_a := npDiff (prices_asset.map m.log)
  sampleCov r_a r_b / sampleVar r_b

/-- `RiskCalculator.perp_hedge_ratio`:
`self.spot * self.beta(spot_series, perp_series)`. -/
def perp_hedge_ratio (m : MathModel) (rc : RiskCalculator)
    (spot_series perp_series : List ℚ) : ℚ :=
  rc.spot * beta m spot_series perp_series

end RiskCalculator

/-- The position-leg kinds stored by `PortfolioAnalytics`. -/
inductive LegType where
  | spot
  | perp
  | option
deriving DecidableEq, Repr

/-- One entry of `PortfolioAnalytics.positions` (portfolio_analytics.py);
the option-only dictionary keys are `Option`-valued. -/
structure Leg where
  type : LegType
  side : ℤ
  size : ℚ
  instrument : String
  strike : Option ℚ := none
  time_to_expiry : Option ℚ := none
  volatility : Option ℚ := none
  option_type : Option OptionType := none
  entry_price : ℚ
  timestamp : String
deriving DecidableEq, Repr

namespace PortfolioAnalytics

/-- `PortfolioAnalytics.add_spot`: appends one leg with
`side = 1 if size >= 0 else -1` and `size = abs(size)`; the wall-clock
timestamp `_now()` is passed in as `ts`. -/
def add_spot (positions : List Leg) (asset : String) (size entry_price : ℚ)
    (ts : String) : List Leg :=
  positions ++ [{ type := .spot,
                  side := if 0 ≤ size then 1 else -1,
                  size := |size|,
                  instrument := asset ++ "-SPOT",
                  entry_price := entry_price,
                  timestamp := ts }]

/-- `PortfolioAnalytics.add_perp`: as `add_spot` with the perpetual
instrument name. -/
def add_perp (positions : List Leg) (asset : String) (size entry_price : ℚ)
    (ts : String) : List Leg :=
  positions ++ [{ type := .perp,
                  side := if 0 ≤ size then 1 else -1,
                  size := |size|,
                  instrument := asset ++ "-PERPETUAL",
                  entry_price := entry_price,
                  timestamp := ts }]

/-- `PortfolioAnalytics.add_option`: computes `T = days / 365`, resolves the
instrument via `client.find_option_instrument` (whose outcome, a name or an
`ExchangeError`, is passed in as `resolved`), and only then appends the leg;
an `ExchangeError` propagates before the append executes, so the returned
ledger state is the untouched input on failure. -/
def add_option (positions : List Leg) (option_type : OptionType)
    (strike : ℚ) (days : ℤ) (volatility size entry_price : ℚ)
    (resolved : Except PyErr String) (ts : String) :
    Except PyErr (List Leg) :=
  let T : ℚ := (days : ℚ) / 365
  match resolved with
  | .error e => .error e
  | .ok inst =>
      .ok (positions ++ [{ type := .option,
                           side := if 0 ≤ size then 1 else -1,
                           size := |size|,
                           instrument := inst,
                           strike := some strike,
                           time_to_expiry := some T,
                           volatility := some volatility,
                           option_type := some option_type,
                           entry_price := entry_price,
                           timestamp := ts }])

end PortfolioAnalytics

/-- The fields of the `delta_neutral` hedge-result record (strategies.py)
that the claims constrain. -/
structure HedgeResult where
  strategy : String
  size : ℚ
  cost : ℚ
  timestamp : String
deriving DecidableEq, Repr

/-- `strategies.delta_neutral`: builds a `RiskCalculator` from the spot and
perp quantities, recommends `size = -rc.hedge_amount()` unconditionally, and
prices it at the fetched perpetual price (passed in as `perp_price`). -/
def delta_neutral (spot_qty perp_qty threshold perp_price : ℚ)
    (ts : String) : HedgeResult :=
  let rc : RiskCalculator := ⟨spot_qty, perp_qty, threshold⟩
  let hq := -rc.hedge_amount
  { strategy := "delta_neutral",
    size := hq,
    cost := |hq * perp_price|,
    timestamp := ts }

/-- The mathematical signum on ℚ, as the spec's `sign(size)` reads:  `1` on
positives, `-1` on negatives, `0` at zero. -/
def signSpec (q : ℚ) : ℤ :=
  if 0 < q then 1 else if q < 0 then -1 else 0

/-- Spec-side running maximum: the maximum of the first `i+1` elements. -/
def prefixMax (xs : List ℚ) (i : ℕ) : ℚ :=
  match xs.take (i + 1) with
  | [] => 0
  | y :: ys => ys.foldl max y

/-- A concrete math model used to instantiate witnesses and
counterexamples.  Its `log` and `sqrt` agree with the genuine primitives at
the points the concrete statements below consult them (`log 1 = 0`,
`sqrt 1 = 1`); the distribution maps only affect numeric payloads, never
which branch is taken or whether an error is raised. -/
def mTest : MathModel :=
  { log := fun _ => 0,
    sqrt := fun q => q,
    exp := fun q => q,
    cdf := fun q => q,
    pdf := fun q => q,
    ppf := fun q => q }

/-- A model whose `log` agrees with the base-2 logarithm on the powers of
two consulted below.  `beta` and the branch taken by `var` are invariant
under rescaling the logarithm by a positive constant (covariances and
variances rescale by its square), so these values exhibit exactly the
behaviour of the natural logarithm on the same price series. -/
def mPow2 : MathModel :=
  { mTest with
    log := fun q =>
      if q = 2 then 1 else if q = 4 then 2 else
      if q = 8 then 3 else if q = 64 then 6 else 0 }

/-- C1: for every RiskCalculator built from spot, perp and threshold values,
`net_delta` is the sum of the exposures, `threshold_limit` is
`|spot| * threshold / 100`, and `needs_hedge` holds exactly when
`|net_delta|` exceeds `threshold_limit`. -/
theorem riskCalculator_core_spec (s p t : ℚ) :
    (RiskCalculator.mk s p t).net_delta = s + p ∧
    (RiskCalculator.mk s p t).threshold_limit = |s| * t / 100 ∧
    (((RiskCalculator.mk s p t).needs_hedge = true) ↔
      |(RiskCalculator.mk s p t).net_delta| > (RiskCalculator.mk s p t).threshold_limit) := by
  refine ⟨rfl, ?_, ?_⟩
  · unfold RiskCalculator.threshold_limit
    ring
  · simp [RiskCalculator.needs_hedge]

/-- C2 (counterexample): on the inputs spot = 100, perp = 80, threshold = 10
the code returns `net_delta() = 180` (not 20) and `hedge_amount() = 180`
(not 20), and on spot = 100, perp = 91 it returns `needs_hedge() = True`
(not `False`): `net_delta` adds the perp exposure instead of subtracting the
hedge, so the claimed example values are false on the code as written. -/
theorem riskCalculator_example_fails_on_code :
    (RiskCalculator.mk 100 80 10).net_delta = 180 ∧
    (RiskCalculator.mk 100 80 10).threshold_limit = 10 ∧
    (RiskCalculator.mk 100 80 10).needs_hedge = true ∧
    (RiskCalculator.mk 100 80 10).hedge_amount = 180 ∧
    (RiskCalculator.mk 100 91 10).needs_hedge = true ∧
    (180 : ℚ) ≠ 20 := by
  refine ⟨?_, ?_, ?_, ?_, ?_, by norm_num⟩ <;>
    norm_num [RiskCalculator.net_delta, RiskCalculator.threshold_limit,
      RiskCalculator.needs_hedge, RiskCalculator.hedge_amount]

/-- Whenever `T ≤ 0`, or `sigma = 0`, or `K = 0`, or exactly one of `S`, `K`
is on the wrong side of zero (making `S/K ≤ 0`), the `d1` pipeline raises,
for every math model. -/
theorem d1_error_of_bad_input (m : MathModel) (S K T r sigma : ℚ)
    (hbad : T ≤ 0 ∨ sigma = 0 ∨ K = 0 ∨ (S ≤ 0 ∧ 0 < K) ∨ (K < 0 ∧ 0 ≤ S)) :
    ∃ e, GreeksCalculator.d1 m S K T r sigma = .error e := by
  unfold GreeksCalculator.d1
  by_cases hK : K = 0
  · exact ⟨.zeroDivisionError, by simp [pyDiv, hK, Except.instMonad, Except.bind]⟩
  by_cases hr : S / K ≤ 0
  · exact ⟨.mathDomainError, by simp [pyDiv, pyLog, hK, hr, Except.instMonad, Except.bind]⟩
  -- now S/K > 0, so the two sign-mismatch disjuncts are impossible
  have hrpos : 0 < S / K := lt_of_not_le hr
  have hbad2 : T ≤ 0 ∨ sigma = 0 := by
    rcases hbad with h | h | h | ⟨h1, h2⟩ | ⟨h1, h2⟩
    · exact Or.inl h
    · exact Or.inr h
    · exact absurd h hK
    · exact absurd (div_nonpos_of_nonpos_of_nonneg h1 h2.le) (not_le.mpr hrpos)
    · exact absurd (div_nonpos_of_nonneg_of_nonpos h2 h1.le) (not_le.mpr hrpos)
  by_cases hT : T < 0
  · exact ⟨.mathDomainError,
      by simp [pyDiv, pyLog, pySqrt, hK, hr, hT, Except.instMonad, Except.bind]⟩
  by_cases hT0 : T = 0
  · exact ⟨.zeroDivisionError,
      by simp [pyDiv, pyLog, pySqrt, hK, hr, hT, hT0, Except.instMonad, Except.bind]⟩
  · have hs : sigma = 0 := by
      rcases hbad2 with h | h
      · exact absurd (lt_of_le_of_ne h hT0) hT
      · exact h
    exact ⟨.zeroDivisionError,
      by simp [pyDiv, pyLog, pySqrt, hK, hr, hT, hT0, hs, Except.instMonad, Except.bind]⟩

/-- C5 (amended): each of delta, gamma, theta and vega raises an error
(math-domain or division-by-zero) rather than returning a value whenever
`T ≤ 0`, or `sigma = 0`, or `K = 0`, or exactly one of `S` and `K` is
nonpositive; the original claim's remaining cases (`sigma < 0` with
otherwise valid inputs, and `S`, `K` both negative) instead return numeric
values, as the counterexample shows. -/
theorem greeks_raise_on_guaranteed_bad_inputs (m : MathModel)
    (S K T r sigma : ℚ) (otype : OptionType)
    (hbad : T ≤ 0 ∨ sigma = 0 ∨ K = 0 ∨ (S ≤ 0 ∧ 0 < K) ∨ (K < 0 ∧ 0 ≤ S)) :
    (∃ e, GreeksCalculator.delta m S K T r sigma otype = .error e) ∧
    (∃ e, GreeksCalculator.gamma m S K T r sigma = .error e) ∧
    (∃ e, GreeksCalculator.theta m S K T r sigma otype = .error e) ∧
    (∃ e, GreeksCalculator.vega m S K T r sigma = .error e) := by
  obtain ⟨e, he⟩ := d1_error_of_bad_input m S K T r sigma hbad
  refine ⟨⟨e, ?_⟩, ⟨e, ?_⟩, ⟨e, ?_⟩, ⟨e, ?_⟩⟩ <;>
    simp [GreeksCalculator.delta, GreeksCalculator.gamma, GreeksCalculator.theta,
      GreeksCalculator.vega, he, Except.instMonad, Except.bind]

/-- Witness for the amended C5 theorem at `T = -1` with the concrete test
model: delta raises. -/
theorem greeks_raise_on_guaranteed_bad_inputs_witness :
    ∃ e, GreeksCalculator.delta mTest 100 100 (-1) 0 1 OptionType.call = .error e :=
  (greeks_raise_on_guaranteed_bad_inputs mTest 100 100 (-1) 0 1 OptionType.call
    (Or.inl (by norm_num))).1

/-- C5 (counterexample): with `sigma = -1 < 0` and otherwise valid inputs
(`S = K = 100`, `T = 1`, `r = 0`) all four operations return numeric values
and raise nothing, refuting the claim that every input with `sigma ≤ 0`
raises a domain error. -/
theorem greeks_negative_sigma_return_values :
    GreeksCalculator.delta mTest 100 100 1 0 (-1) OptionType.call = .ok (-(1/2)) ∧
    GreeksCalculator.gamma mTest 100 100 1 0 (-1) = .ok (1/200) ∧
    GreeksCalculator.theta mTest 100 100 1 0 (-1) OptionType.call = .ok (-(5/73)) ∧
    GreeksCalculator.vega mTest 100 100 1 0 (-1) = .ok (-(1/2)) := by
  refine ⟨?_, ?_, ?_, ?_⟩ <;>
    norm_num [GreeksCalculator.delta, GreeksCalculator.gamma, GreeksCalculator.theta,
      GreeksCalculator.vega, GreeksCalculator.d1, GreeksCalculator.d2, mTest,
      pyDiv, pyLog, pySqrt, Except.instMonad, Except.bind]

/-- C6: when the put delta resolves to a value `d` with `0 < d ≤ 1` and the
spot quantity is positive, `hedge_qty` is exactly the integer ceiling of
`spot_qty / d`, hence at least the exact fractional coverage; when the put
delta is zero, `hedge_qty` raises instead of returning a number. -/
theorem hedgeQty_ceiling_spec (m : MathModel) (h : OptionsHedger) (d : ℚ)
    (hpd : OptionsHedger.put_delta m h = .ok d) :
    (d = 0 → OptionsHedger.hedge_qty m h = .error .zeroDivisionError) ∧
    (0 < d → d ≤ 1 → 0 < h.spot_qty →
      OptionsHedger.hedge_qty m h = .ok ⌈h.spot_qty / d⌉ ∧
      h.spot_qty / d ≤ (⌈h.spot_qty / d⌉ : ℚ)) := by
  constructor
  · intro hd
    subst hd
    simp [OptionsHedger.hedge_qty, hpd, pyDiv, Except.instMonad, Except.bind]
  · intro h1 _ _
    refine ⟨?_, Int.le_ceil _⟩
    simp [OptionsHedger.hedge_qty, hpd, pyDiv, h1.ne', Except.instMonad, Except.bind]

/-- Witness for C6 at `S = K = 100`, `T = 1`, `r = 0`, `sigma = 1`,
`spot_qty = 3` under the test model, where the put delta is `1/2`:
the hedge quantity is the ceiling `6 = 3 / (1/2)`. -/
theorem hedgeQty_ceiling_spec_witness :
    OptionsHedger.hedge_qty mTest ⟨100, 100, 1, 0, 1, 3⟩ = .ok 6 := by
  have hpd : OptionsHedger.put_delta mTest ⟨100, 100, 1, 0, 1, 3⟩ = .ok (1/2) := by
    norm_num [OptionsHedger.put_delta, GreeksCalculator.delta, GreeksCalculator.d1,
      mTest, pyDiv, pyLog, pySqrt, Except.instMonad, Except.bind, Except.map]
    rw [if_neg (by simp : ¬(OptionType.put = OptionType.call))]
    norm_num
  obtain ⟨-, h2⟩ := hedgeQty_ceiling_spec mTest ⟨100, 100, 1, 0, 1, 3⟩ (1/2) hpd
  obtain ⟨e1, -⟩ := h2 (by norm_num) (by norm_num) (by norm_num)
  rw [e1]
  norm_num

/-- C9: `add_option` propagates a failed instrument resolution unchanged
and leaves the ledger exactly as it was; on success it appends exactly one
leg, which stores `time_to_expiry = days / 365` and the resolved
instrument name. -/
theorem addOption_resolution_atomicity (ps : List Leg) (ot : OptionType)
    (strike : ℚ) (days : ℤ) (vol size ep : ℚ) (e : PyErr) (inst : String)
    (ts : String) :
    PortfolioAnalytics.add_option ps ot strike days vol size ep (.error e) ts
      = .error e ∧
    ∃ l : Leg,
      PortfolioAnalytics.add_option ps ot strike days vol size ep (.ok inst) ts
        = .ok (ps ++ [l]) ∧
      l.time_to_expiry = some ((days : ℚ) / 365) ∧
      l.instrument = inst :=
  ⟨rfl, ⟨_, rfl, rfl, rfl⟩⟩

/-- C10: `hedge_amount` is `net_delta` unchanged whatever the threshold,
and `delta_neutral` recommends `size = -(spot_qty + perp_qty)`
unconditionally: the threshold argument never affects the recommended
size, which is the same even when `needs_hedge` is false. -/
theorem deltaNeutral_size_ignores_threshold (s p t t2 price : ℚ)
    (ts : String) :
    (RiskCalculator.mk s p t).hedge_amount = (RiskCalculator.mk s p t).net_delta ∧
    (delta_neutral s p t price ts).size = -(s + p) ∧
    (delta_neutral s p t price ts).size = (delta_neutral s p t2 price ts).size :=
  ⟨rfl, rfl, rfl⟩

/-- C8 (counterexample): a spot leg added with size 0 is stored with
`side = 1`, while the signum of 0 is 0, so `side = sign(size)` fails at
the zero input the claim explicitly includes. -/
theorem addSpot_zero_size_side_is_one :
    PortfolioAnalytics.add_spot [] "BTC" 0 50 "t"
      = [{ type := .spot, side := 1, size := 0, instrument := "BTC-SPOT",
           entry_price := 50, timestamp := "t" }] ∧
    signSpec 0 = 0 ∧ (1 : ℤ) ≠ 0 := by
  refine ⟨?_, rfl, by decide⟩
  simp [PortfolioAnalytics.add_spot]

/-- C8 (amended): `add_spot` and `add_perp` append exactly one leg, whose
stored size is `|size| ≥ 0` and whose side is `+1` for nonnegative size and
`-1` for negative size — equal to `sign(size)` whenever `size ≠ 0`, while a
zero size is stored with side `+1`, not `sign(0) = 0`. -/
theorem addSpot_addPerp_leg_spec (ps : List Leg) (a : String) (sz ep : ℚ)
    (ts : String) :
    ∃ l l2 : Leg,
      PortfolioAnalytics.add_spot ps a sz ep ts = ps ++ [l] ∧
      PortfolioAnalytics.add_perp ps a sz ep ts = ps ++ [l2] ∧
      l.size = |sz| ∧ 0 ≤ l.size ∧
      l.side = (if 0 ≤ sz then 1 else -1) ∧
      l2.size = |sz| ∧ 0 ≤ l2.size ∧ l2.side = l.side ∧
      (sz ≠ 0 → l.side = signSpec sz) := by
  refine ⟨_, _, rfl, rfl, rfl, ?_, rfl, rfl, ?_, rfl, ?_⟩
  · exact abs_nonneg sz
  · exact abs_nonneg sz
  · intro h
    show (if 0 ≤ sz then 1 else -1) = signSpec sz
    unfold signSpec
    rcases lt_trichotomy sz 0 with hlt | hz | hgt
    · rw [if_neg (not_le.mpr hlt), if_neg (not_lt.mpr hlt.le), if_pos hlt]
    · exact absurd hz h
    · rw [if_pos hgt.le, if_pos hgt]

/-- Witness for the amended C8 theorem at a concrete negative size. -/
theorem addSpot_addPerp_leg_spec_witness :
    ∃ l : Leg, PortfolioAnalytics.add_spot [] "ETH" (-2) 50 "t" = [l] ∧
      l.size = 2 ∧ l.side = signSpec (-2) := by
  obtain ⟨l, l2, h1, -, h3, -, h5, -, -, -, h9⟩ :=
    addSpot_addPerp_leg_spec [] "ETH" (-2) 50 "t"
  refine ⟨l, by simpa using h1, ?_, h9 (by norm_num)⟩
  rw [h3]
  norm_num

/-- C4 (counterexample): on spot series `[1, 2, 8]` and perp series
`[1, 4, 64]` (log-returns `[1, 2]` and `[2, 4]`) the code returns
`perp_hedge_ratio = spot * cov / var(spot returns) = 100 * (1 / (1/2)) = 200`,
while the claimed `spot * beta(perp_series, spot_series)` is
`100 * (1 / 2) = 50`: the claim swaps the benchmark argument of `beta`. -/
theorem perpHedgeRatio_claim_argument_order_fails :
    RiskCalculator.perp_hedge_ratio mPow2 (RiskCalculator.mk 100 0 10)
        [1, 2, 8] [1, 4, 64] = 200 ∧
    RiskCalculator.beta mPow2 [1, 4, 64] [1, 2, 8] = 1 / 2 ∧
    (200 : ℚ) ≠ 100 * (1 / 2) := by
  refine ⟨?_, ?_, by norm_num⟩ <;>
    norm_num [RiskCalculator.perp_hedge_ratio, RiskCalculator.beta, npDiff,
      mean, sampleVar, sampleCov, mPow2, mTest]

/-- C4 (amended): `perp_hedge_ratio(spot_series, perp_series)` equals
`spot_exposure_value * beta(spot_series, perp_series)` — the benchmark of
the beta is the spot series — and that beta is exactly the sample
covariance of the perp log-returns with the spot log-returns divided by
the sample variance of the spot log-returns. -/
theorem perpHedgeRatio_eq_spot_mul_beta (m : MathModel)
    (rc : RiskCalculator) (spot_series perp_series : List ℚ) :
    rc.perp_hedge_ratio m spot_series perp_series
      = rc.spot * RiskCalculator.beta m spot_series perp_series ∧
    RiskCalculator.beta m spot_series perp_series
      = sampleCov (npDiff (perp_series.map m.log))
          (npDiff (spot_series.map m.log))
        / sampleVar (npDiff (spot_series.map m.log)) :=
  ⟨rfl, rfl⟩

/-- C3 (code bug): on the constant-growth price series `[1, 2, 4]` the
log-returns are an equal positive pair, the sample standard deviation is
exactly zero, and the empirical-percentile fallback returns
`-(percentile) * |spot| = -100 < 0` — a strictly negative VaR, contradicting
the docstring ("VaR as positive number representing potential loss") and the
claimed non-negativity of the empirical path.  Computed in the base-2 log
model; with the natural logarithm the same branch returns
`-|spot| * ln 2 < 0`. -/
theorem var_empirical_path_returns_negative :
    RiskCalculator.var mPow2 (RiskCalculator.mk 100 0 10) [1, 2, 4] (95 / 100)
      = .ok (-100) ∧
    (-100 : ℚ) < 0 := by
  constructor
  · norm_num [RiskCalculator.var, npDiff, mean, sampleVar, npSqrt, percentile,
      mPow2, mTest, List.insertionSort, List.orderedInsert]
  · norm_num

/-- The initial accumulator is a lower bound of a `max` fold. -/
theorem le_foldl_max (xs : List ℚ) (a : ℚ) : a ≤ xs.foldl max a := by
  induction xs generalizing a with
  | nil => exact le_refl a
  | cons y ys ih => exact le_trans (le_max_left a y) (ih (max a y))

/-- Every list element is bounded by a `max` fold over the list. -/
theorem mem_le_foldl_max {xs : List ℚ} {x : ℚ} (hx : x ∈ xs) (a : ℚ) :
    x ≤ xs.foldl max a := by
  induction xs generalizing a with
  | nil => cases hx
  | cons y ys ih =>
      rw [List.foldl_cons]
      rcases List.mem_cons.mp hx with h | h
      · subst h
        exact le_trans (le_max_right a x) (le_foldl_max ys (max a x))
      · exact ih h (max a y)

/-- A `max` fold is the accumulator or one of the list elements. -/
theorem foldl_max_eq_or_mem (xs : List ℚ) (a : ℚ) :
    xs.foldl max a = a ∨ xs.foldl max a ∈ xs := by
  induction xs generalizing a with
  | nil => exact Or.inl rfl
  | cons y ys ih =>
      rcases ih (max a y) with h | h
      · rcases max_choice a y with hc | hc
        · exact Or.inl (by rw [List.foldl_cons, h, hc])
        · exact Or.inr (by rw [List.foldl_cons, h, hc]; exact List.mem_cons_self y ys)
      · exact Or.inr (List.mem_cons_of_mem y h)

/-- `npMax` of a nonempty list is an attained upper bound of the list. -/
theorem npMax_spec (l : List ℚ) (h : l ≠ []) :
    ∃ v, npMax l = .ok v ∧ (∀ y ∈ l, y ≤ v) ∧ v ∈ l := by
  match l with
  | [] => exact absurd rfl h
  | x :: xs =>
      refine ⟨xs.foldl max x, rfl, ?_, ?_⟩
      · intro y hy
        rcases List.mem_cons.mp hy with h | h
        · subst h
          exact le_foldl_max xs y
        · exact mem_le_foldl_max h x
      · rcases foldl_max_eq_or_mem xs x with h | h
        · rw [h]
          exact List.mem_cons_self x xs
        · exact List.mem_cons_of_mem x h

/-- `maxAccumFrom` preserves length. -/
theorem maxAccumFrom_length (mx : ℚ) (xs : List ℚ) :
    (maxAccumFrom mx xs).length = xs.length := by
  induction xs generalizing mx with
  | nil => rfl
  | cons y ys ih => simp [maxAccumFrom, ih]

/-- `maxAccum` preserves length. -/
theorem maxAccum_length (xs : List ℚ) : (maxAccum xs).length = xs.length := by
  cases xs with
  | nil => rfl
  | cons y ys => simp [maxAccum, maxAccumFrom_length]

/-- Position `i` of `maxAccumFrom mx xs` is the `max` fold of the first
`i+1` elements over the accumulator `mx`. -/
theorem maxAccumFrom_getD (xs : List ℚ) (mx : ℚ) (i : ℕ) (h : i < xs.length) :
    (maxAccumFrom mx xs).getD i 0 = (xs.take (i + 1)).foldl max mx := by
  induction xs generalizing mx i with
  | nil => cases h
  | cons y ys ih =>
      cases i with
      | zero => simp [maxAccumFrom]
      | succ j =>
          have hj : j < ys.length := by
            simpa using Nat.lt_of_succ_lt_succ h
          simp only [maxAccumFrom, List.getD_cons_succ, List.take_succ_cons,
            List.foldl_cons]
          exact ih (max mx y) j hj

/-- Position `i` of `np.maximum.accumulate` is the running maximum of the
first `i+1` elements. -/
theorem maxAccum_getD (xs : List ℚ) (i : ℕ) (h : i < xs.length) :
    (maxAccum xs).getD i 0 = prefixMax xs i := by
  cases xs with
  | nil => cases h
  | cons y ys =>
      cases i with
      | zero => simp [maxAccum, prefixMax]
      | succ j =>
          have hj : j < ys.length := by simpa using Nat.lt_of_succ_lt_succ h
          have h1 : (maxAccum (y :: ys)).getD (j + 1) 0
              = (ys.take (j + 1)).foldl max y := by
            simp only [maxAccum, List.getD_cons_succ]
            exact maxAccumFrom_getD ys y j hj
          rw [h1]
          simp [prefixMax]

/-- Positionwise description of the pointwise subtraction `zipWith`. -/
theorem zipWith_sub_getD (xs ys : List ℚ) (i : ℕ) (h1 : i < xs.length)
    (h2 : i < ys.length) :
    (List.zipWith (fun c p => c - p) xs ys).getD i 0
      = xs.getD i 0 - ys.getD i 0 := by
  induction xs generalizing ys i with
  | nil => cases h1
  | cons x xt ih =>
      cases ys with
      | nil => cases h2
      | cons y yt =>
          cases i with
          | zero => simp
          | succ j =>
              have hj1 : j < xt.length := by simpa using Nat.lt_of_succ_lt_succ h1
              have hj2 : j < yt.length := by simpa using Nat.lt_of_succ_lt_succ h2
              simpa using ih yt j hj1 hj2

/-- A list member sits at some position, read through `getD`. -/
theorem mem_exists_getD {l : List ℚ} {x : ℚ} (hx : x ∈ l) :
    ∃ i, i < l.length ∧ l.getD i 0 = x := by
  induction l with
  | nil => cases hx
  | cons y ys ih =>
      rcases List.mem_cons.mp hx with h | h
      · exact ⟨0, Nat.succ_pos _, h.symm⟩
      · obtain ⟨i, hi, hg⟩ := ih h
        exact ⟨i + 1, Nat.succ_lt_succ hi, hg⟩

/-- Every in-range `getD` value is a member of the list. -/
theorem getD_mem (l : List ℚ) (i : ℕ) (h : i < l.length) : l.getD i 0 ∈ l := by
  induction l generalizing i with
  | nil => cases h
  | cons y ys ih =>
      cases i with
      | zero => exact List.mem_cons_self y ys
      | succ j =>
          have hj : j < ys.length := by simpa using Nat.lt_of_succ_lt_succ h
          exact List.mem_cons_of_mem y (ih j hj)

/-- C7: for every nonempty P&L series, `max_drawdown` returns the maximum
over all positions of the running maximum up to that position minus the
value there — it bounds every such difference and attains one of them —
and on `[0, 10, 5, 15, 7, 20, 12]` it returns 8. -/
theorem maxDrawdown_running_peak_spec (pnl : List ℚ) (hne : pnl ≠ []) :
    (∃ v, RiskCalculator.max_drawdown pnl = .ok v ∧
      (∀ i, i < pnl.length → prefixMax pnl i - pnl.getD i 0 ≤ v) ∧
      (∃ i, i < pnl.length ∧ v = prefixMax pnl i - pnl.getD i 0)) ∧
    RiskCalculator.max_drawdown [0, 10, 5, 15, 7, 20, 12] = .ok 8 := by
  constructor
  · have hlen : (List.zipWith (fun c p => c - p) (maxAccum pnl) pnl).length
        = pnl.length := by
      rw [List.length_zipWith, maxAccum_length, min_self]
    have hdne : List.zipWith (fun c p => c - p) (maxAccum pnl) pnl ≠ [] := by
      intro hcon
      apply hne
      have : pnl.length = 0 := by rw [← hlen, hcon]; rfl
      exact List.eq_nil_of_length_eq_zero this
    obtain ⟨v, hv, hub, hmem⟩ :=
      npMax_spec (List.zipWith (fun c p => c - p) (maxAccum pnl) pnl) hdne
    have hpt : ∀ i, i < pnl.length →
        (List.zipWith (fun c p => c - p) (maxAccum pnl) pnl).getD i 0
          = prefixMax pnl i - pnl.getD i 0 := by
      intro i hi
      rw [zipWith_sub_getD _ _ i (by rw [maxAccum_length]; exact hi) hi,
        maxAccum_getD pnl i hi]
    refine ⟨v, hv, ?_, ?_⟩
    · intro i hi
      rw [← hpt i hi]
      exact hub _ (getD_mem _ i (by rw [hlen]; exact hi))
    · obtain ⟨i, hi, hg⟩ := mem_exists_getD hmem
      rw [hlen] at hi
      exact ⟨i, hi, by rw [← hg, hpt i hi]⟩
  · norm_num [RiskCalculator.max_drawdown, maxAccum, maxAccumFrom, npMax,
      max_def]

/-- Witness for C7 on the spec example series. -/
theorem maxDrawdown_running_peak_spec_witness :
    RiskCalculator.max_drawdown [0, 10, 5, 15, 7, 20, 12] = .ok 8 :=
  (maxDrawdown_running_peak_spec [0, 10, 5, 15, 7, 20, 12] (by simp)).2

end SpotHedge
